import Mathlib

/-!
Shallow embedding of `flowy-document`'s `DocumentActor`
(`src/rust-lib/flowy-document/src/services/doc/edit/doc_actor.rs`).

The actor owns a `Document` behind a lock, drains an mpsc channel of
`DocumentMsg` commands, and answers each command on its one-shot reply
handle.  The external collaborators (the `Document` capability, the
`Delta`/`Revision` codecs, the connection pool and the SQL layer) live in
other crates; they are abstracted as a capability record `DocumentOps`
whose fields mirror the methods the actor calls, and — where a claim is
decided by their behaviour — modelled from the spec (marked as such).

Effects that the Rust code performs (sending on a reply handle, logging,
handing a changeset to the persistence layer) are reified as an explicit
event list, and the mutable `Document` behind the `RwLock` as explicit
state passing.
-/

namespace DocActor

/-- Error taxonomy of the spec (§7).  The Rust `DocError` (in `errors.rs`,
outside the embedded file) is an opaque error value; the spec's taxonomy
names the conditions the claims distinguish. -/
inductive DocError where
  | validationError
  | decodeError
  | transformError
  | noHistoryError
  | connectionError
  | storageError
  | mergeError
  deriving DecidableEq, Repr

/-- Wire `Revision` (spec §6): an envelope decodable to a revision id and a
delta payload.  Mirrors the fields `rev_id` and `delta_data` the actor
reads from `Revision`. -/
structure Revision where
  rev_id : Int
  delta_data : List Nat
  deriving DecidableEq, Repr

/-- The `TransformDeltas` record the `RemoteRevision` handler sends back:
client prime, server prime, and the incoming revision id. -/
structure TransformDeltas (Delta : Type) where
  client_prime : Delta
  server_prime : Delta
  server_rev_id : Int
  deriving DecidableEq, Repr

/-- `DocTableChangeset` as built by `save_to_disk`: document id, serialized
document body, revision id. -/
structure DocTableChangeset where
  id : String
  data : String
  rev_id : Int
  deriving DecidableEq, Repr

/-- Decidable equality for `Except`, needed to evaluate handler results on
concrete inputs. -/
instance exceptDecEq {e a : Type} [DecidableEq e] [DecidableEq a] :
    DecidableEq (Except e a) := fun x y =>
  match x, y with
  | .error u, .error v =>
    if h : u = v then .isTrue (by rw [h]) else .isFalse (by simp [h])
  | .error _, .ok _ => .isFalse (by simp)
  | .ok _, .error _ => .isFalse (by simp)
  | .ok u, .ok v =>
    if h : u = v then .isTrue (by rw [h]) else .isFalse (by simp [h])

/-- Payload sent on a command's one-shot reply handle.  One constructor per
result type the handlers send. -/
inductive ReplyPayload (Delta : Type) where
  | composeResult (r : Except DocError Unit)
  | transformResult (r : Except DocError (TransformDeltas Delta))
  | opResult (r : Except DocError Delta)
  | boolResult (b : Bool)
  | docResult (r : Except DocError String)
  | saveResult (r : Except DocError Unit)
  deriving DecidableEq, Repr

/-- Observable effects of handling commands: a send on a reply handle
(handles are named by a `Nat` id), an error logged by the run loop, a
debug log line, and a changeset handed to the persistence layer. -/
inductive Effect (Delta : Type) where
  | reply (ret : Nat) (payload : ReplyPayload Delta)
  | logError (e : DocError)
  | logDebug (s : String)
  | dbUpdate (c : DocTableChangeset)
  deriving DecidableEq, Repr

/-- The command set of `DocumentMsg` (message.rs), with each variant's
one-shot reply handle reified as a `Nat` id. -/
inductive DocumentMsg (Delta Interval Attribute : Type) where
  | delta (delta : Delta) (ret : Nat)
  | remoteRevision (bytes : List Nat) (ret : Nat)
  | insert (index : Nat) (data : String) (ret : Nat)
  | delete (interval : Interval) (ret : Nat)
  | format (interval : Interval) (attr : Attribute) (ret : Nat)
  | replace (interval : Interval) (data : String) (ret : Nat)
  | canUndo (ret : Nat)
  | canRedo (ret : Nat)
  | undo (ret : Nat)
  | redo (ret : Nat)
  | doc (ret : Nat)
  | saveDocument (rev_id : Int) (ret : Nat)
  deriving DecidableEq, Repr

/-- The reply-handle id carried by a command (every variant carries one). -/
def DocumentMsg.retOf {Delta Interval Attribute : Type} :
    DocumentMsg Delta Interval Attribute → Nat
  | .delta _ r => r
  | .remoteRevision _ r => r
  | .insert _ _ r => r
  | .delete _ r => r
  | .format _ _ r => r
  | .replace _ _ r => r
  | .canUndo r => r
  | .canRedo r => r
  | .undo r => r
  | .redo r => r
  | .doc r => r
  | .saveDocument _ r => r

/-- Capabilities of the external collaborators, one field per call the
actor makes on them.  `Doc` is the state of the `Document` behind the
`RwLock`; a method that mutates through the write lock is a function
`Doc → Doc × result`. -/
structure DocumentOps (Doc Delta Interval Attribute : Type) where
  tryFromRevision : List Nat → Except DocError Revision
  deltaFromBytes : List Nat → Except DocError Delta
  docDelta : Doc → Delta
  transform : Delta → Delta → Except DocError (Delta × Delta)
  composeDelta : Doc → Delta → Doc × Except DocError Unit
  insert : Doc → Nat → String → Doc × Except DocError Delta
  delete : Doc → Interval → Doc × Except DocError Delta
  format : Doc → Interval → Attribute → Doc × Except DocError Delta
  replace : Doc → Interval → String → Doc × Except DocError Delta
  canUndo : Doc → Bool
  canRedo : Doc → Bool
  undo : Doc → Doc × Except DocError Delta
  redo : Doc → Doc × Except DocError Delta
  toJson : Doc → String
  deltaToJson : Delta → String
  poolGet : Except Unit Unit
  updateDocTable : DocTableChangeset → Except DocError Unit

/-- Modelled from the spec: `internal_error` (in `errors.rs`, outside the
embedded file) wraps the pool-acquisition failure; per spec §4.7 and §7
an exhausted pool surfaces as `ConnectionError`. -/
def internal_error : Unit → DocError := fun _ => DocError.connectionError

/-- Actor state: the document id fixed at construction and the `Document`
behind the lock. -/
structure ActorState (Doc : Type) where
  doc_id : String
  doc : Doc
  deriving DecidableEq, Repr

variable {Doc Delta Interval Attribute : Type}

/-- `DocumentActor::compose_delta`: composes the delta through the write
lock, emits the debug log line (delta json and resulting document json),
and returns the document's result. -/
def compose_delta (ops : DocumentOps Doc Delta Interval Attribute)
    (st : ActorState Doc) (delta : Delta) :
    ActorState Doc × List (Effect Delta) × Except DocError Unit :=
  let p := ops.composeDelta st.doc delta
  let st' : ActorState Doc := ⟨st.doc_id, p.1⟩
  (st',
   [Effect.logDebug (ops.deltaToJson delta ++ " " ++ ops.toJson p.1)],
   p.2)

/-- `DocumentActor::save_to_disk`: serializes the current document, builds
the changeset `{doc_id, data, rev_id}`, acquires a pooled connection
(mapping failure through `internal_error`), and hands the changeset to
`update_doc_table`.  Only reads the document. -/
def save_to_disk (ops : DocumentOps Doc Delta Interval Attribute)
    (st : ActorState Doc) (rev_id : Int) :
    List (Effect Delta) × Except DocError Unit :=
  let data := ops.toJson st.doc
  let changeset : DocTableChangeset := ⟨st.doc_id, data, rev_id⟩
  match ops.poolGet with
  | .error e => ([], .error (internal_error e))
  | .ok _ =>
    match ops.updateDocTable changeset with
    | .error e => ([Effect.dbUpdate changeset], .error e)
    | .ok _ => ([Effect.dbUpdate changeset], .ok ())

/-- `DocumentActor::handle_message`: dispatch on the command, perform the
operation, send the result on the command's reply handle, and return the
handler's own `DocResult<()>`.  Mirrors the Rust `match` arm for arm; the
`?` operators in the `RemoteRevision` arm become early `.error` returns
with no reply sent. -/
def handle_message (ops : DocumentOps Doc Delta Interval Attribute)
    (st : ActorState Doc) (msg : DocumentMsg Delta Interval Attribute) :
    ActorState Doc × List (Effect Delta) × Except DocError Unit :=
  match msg with
  | .delta delta ret =>
    let r := compose_delta ops st delta
    (r.1, r.2.1 ++ [Effect.reply ret (.composeResult r.2.2)], .ok ())
  | .remoteRevision bytes ret =>
    match ops.tryFromRevision bytes with
    | .error e => (st, [], .error e)
    | .ok revision =>
      match ops.deltaFromBytes revision.delta_data with
      | .error e => (st, [], .error e)
      | .ok delta =>
        let rev_id : Int := revision.rev_id
        match ops.transform (ops.docDelta st.doc) delta with
        | .error e => (st, [], .error e)
        | .ok (server_prime, client_prime) =>
          let transform_delta : TransformDeltas Delta :=
            ⟨client_prime, server_prime, rev_id⟩
          (st, [Effect.reply ret (.transformResult (.ok transform_delta))],
           .ok ())
  | .insert index data ret =>
    let p := ops.insert st.doc index data
    (⟨st.doc_id, p.1⟩, [Effect.reply ret (.opResult p.2)], .ok ())
  | .delete interval ret =>
    let p := ops.delete st.doc interval
    (⟨st.doc_id, p.1⟩, [Effect.reply ret (.opResult p.2)], .ok ())
  | .format interval attr ret =>
    let p := ops.format st.doc interval attr
    (⟨st.doc_id, p.1⟩, [Effect.reply ret (.opResult p.2)], .ok ())
  | .replace interval data ret =>
    let p := ops.replace st.doc interval data
    (⟨st.doc_id, p.1⟩, [Effect.reply ret (.opResult p.2)], .ok ())
  | .canUndo ret =>
    (st, [Effect.reply ret (.boolResult (ops.canUndo st.doc))], .ok ())
  | .canRedo ret =>
    (st, [Effect.reply ret (.boolResult (ops.canRedo st.doc))], .ok ())
  | .undo ret =>
    let p := ops.undo st.doc
    (⟨st.doc_id, p.1⟩, [Effect.reply ret (.opResult p.2)], .ok ())
  | .redo ret =>
    let p := ops.redo st.doc
    (⟨st.doc_id, p.1⟩, [Effect.reply ret (.opResult p.2)], .ok ())
  | .doc ret =>
    (st, [Effect.reply ret (.docResult (.ok (ops.toJson st.doc)))], .ok ())
  | .saveDocument rev_id ret =>
    let r := save_to_disk ops st rev_id
    (st, r.1 ++ [Effect.reply ret (.saveResult r.2)], .ok ())

/-- `DocumentActor::run`: drain the channel (embedded as the list of
commands received before every producer is dropped), handling one command
at a time; a handler error is logged at the dispatch boundary and the
loop continues with the next command. -/
def run (ops : DocumentOps Doc Delta Interval Attribute) :
    ActorState Doc → List (DocumentMsg Delta Interval Attribute) →
    ActorState Doc × List (Effect Delta)
  | st, [] => (st, [])
  | st, msg :: rest =>
    let r := handle_message ops st msg
    let logged : List (Effect Delta) :=
      match r.2.2 with
      | .ok _ => []
      | .error e => [Effect.logError e]
    let k := run ops r.1 rest
    (k.1, r.2.1 ++ logged ++ k.2)

/-- Spec-side staged pipeline for `RemoteRevision` (§4.4): decode the
envelope into a `Revision`, decode its payload into a `Delta`, transform
the current document delta against the incoming one, and pair the primes
with the incoming revision id.  Written from the spec's words; compared
against `handle_message` for the refinement claim. -/
def remoteRevisionStaged (ops : DocumentOps Doc Delta Interval Attribute)
    (doc : Doc) (bytes : List Nat) : Except DocError (TransformDeltas Delta) := do
  let revision ← ops.tryFromRevision bytes
  let delta ← ops.deltaFromBytes revision.delta_data
  let p ← ops.transform (ops.docDelta doc) delta
  pure ⟨p.2, p.1, revision.rev_id⟩

/-- The error of a fallible result, if any. -/
def errOpt {a : Type} : Except DocError a → Option DocError
  | .error e => some e
  | .ok _ => none

/-- The error carried inside a reply payload, if any. -/
def payloadError : ReplyPayload Delta → Option DocError
  | .composeResult (.error e) => some e
  | .transformResult (.error e) => some e
  | .opResult (.error e) => some e
  | .docResult (.error e) => some e
  | .saveResult (.error e) => some e
  | _ => none

/-- Spec-side observation: the failure of the operation a command's handler
performs, per variant (none for the infallible probes). -/
def observedOpError (ops : DocumentOps Doc Delta Interval Attribute)
    (st : ActorState Doc) : DocumentMsg Delta Interval Attribute → Option DocError
  | .delta d _ => errOpt (ops.composeDelta st.doc d).2
  | .remoteRevision b _ => errOpt (remoteRevisionStaged ops st.doc b)
  | .insert i s _ => errOpt (ops.insert st.doc i s).2
  | .delete iv _ => errOpt (ops.delete st.doc iv).2
  | .format iv a _ => errOpt (ops.format st.doc iv a).2
  | .replace iv s _ => errOpt (ops.replace st.doc iv s).2
  | .canUndo _ => none
  | .canRedo _ => none
  | .undo _ => errOpt (ops.undo st.doc).2
  | .redo _ => errOpt (ops.redo st.doc).2
  | .doc _ => none
  | .saveDocument rid _ => errOpt (save_to_disk ops st rid).2

/-- Spec-side sequential execution: fold the handler over the commands in
arrival order — the document state the FIFO guarantee prescribes. -/
def sequentialExec (ops : DocumentOps Doc Delta Interval Attribute)
    (st : ActorState Doc) (msgs : List (DocumentMsg Delta Interval Attribute)) :
    ActorState Doc :=
  msgs.foldl (fun s m => (handle_message ops s m).1) st

/-- Modelled from the spec: a delta operation (§3) — insert text, retain a
span, or delete a span, attributes omitted (no claim concerns them). -/
inductive DOp where
  | insert (s : String)
  | retain (n : Nat)
  | delete (n : Nat)
  deriving DecidableEq, Repr

/-- Modelled from the spec: an incremental-edit delta as an operation list. -/
def SpecDelta := List DOp

instance specDeltaDecEq : DecidableEq SpecDelta :=
  fun a b => instDecidableEqList a b

/-- Modelled from the spec: apply an edit delta to a document body,
honouring the §3 length invariant — a retain or delete past the end of
the body fails; remaining input is implicitly retained. -/
def applyDelta : String → List DOp → Option String
  | s, [] => some s
  | s, DOp.insert t :: rest => Option.map (fun r => t ++ r) (applyDelta s rest)
  | s, DOp.retain n :: rest =>
    if n ≤ s.length then
      Option.map (fun r => (s.take n) ++ r) (applyDelta (s.drop n) rest)
    else none
  | s, DOp.delete n :: rest =>
    if n ≤ s.length then applyDelta (s.drop n) rest else none

/-- Modelled from the spec: the `Document` state (§3) — current body plus
the undo and redo stacks (stacks of previous bodies). -/
structure SpecDocument where
  body : String
  undo_stack : List String
  redo_stack : List String
  deriving DecidableEq, Repr

/-- Modelled from the spec: `Document::compose_delta` (the external
`Document` capability, outside the embedded file).  Applies the delta to
the current body; per §4.5 a failure leaves the document byte-identical
to its pre-call state; per §4.6 a successful composing edit pushes onto
the undo stack and clears the redo stack. -/
def specComposeDelta (d : SpecDocument) (delta : SpecDelta) :
    SpecDocument × Except DocError Unit :=
  match applyDelta d.body delta with
  | some nb => (⟨nb, d.body :: d.undo_stack, []⟩, .ok ())
  | none => (d, .error DocError.mergeError)

/-- Modelled from the spec: the external collaborators instantiated with
`SpecDocument`; the local edits are expressed as composed deltas, undo
and redo per §4.6, persistence always available.  The claims about
compose exercise `specComposeDelta`; the codecs and transform are not
exercised by them. -/
def composeSpecOps : DocumentOps SpecDocument SpecDelta (Nat × Nat) String :=
  DocumentOps.mk
    (fun _ => Except.error DocError.decodeError)
    (fun _ => Except.error DocError.decodeError)
    (fun d => [DOp.insert d.body])
    (fun _ _ => Except.error DocError.transformError)
    specComposeDelta
    (fun d i s =>
      let p := specComposeDelta d [DOp.retain i, DOp.insert s]
      (p.1, Except.map (fun _ => [DOp.retain i, DOp.insert s]) p.2))
    (fun d iv =>
      let p := specComposeDelta d [DOp.retain iv.1, DOp.delete (iv.2 - iv.1)]
      (p.1, Except.map (fun _ => [DOp.retain iv.1, DOp.delete (iv.2 - iv.1)]) p.2))
    (fun d _ _ => (d, Except.ok []))
    (fun d iv s =>
      let p := specComposeDelta d [DOp.retain iv.1, DOp.delete (iv.2 - iv.1), DOp.insert s]
      (p.1, Except.map (fun _ => [DOp.retain iv.1, DOp.delete (iv.2 - iv.1), DOp.insert s]) p.2))
    (fun d => !d.undo_stack.isEmpty)
    (fun d => !d.redo_stack.isEmpty)
    (fun d =>
      match d.undo_stack with
      | [] => (d, Except.error DocError.noHistoryError)
      | prev :: rest => (⟨prev, rest, d.body :: d.redo_stack⟩, Except.ok [DOp.insert prev]))
    (fun d =>
      match d.redo_stack with
      | [] => (d, Except.error DocError.noHistoryError)
      | nxt :: rest => (⟨nxt, d.body :: d.undo_stack, rest⟩, Except.ok [DOp.insert nxt]))
    (fun d => d.body)
    (fun _ => "")
    (Except.ok ())
    (fun _ => Except.ok ())

/-- Concrete capability instance for evaluating the actor on concrete
inputs: the document is a counter, deltas are numbers; decoding the
envelope fails on an empty byte list, decoding the payload fails on the
byte list `[9]`, transform and compose fail on delta `0`, undo fails at
counter `0`; the pool result is the parameter. -/
def mkTestOps (pool : Except Unit Unit) : DocumentOps Nat Nat Nat Nat :=
  DocumentOps.mk
    (fun bytes => if bytes.isEmpty then .error .decodeError else .ok ⟨7, bytes⟩)
    (fun bs => if bs = [9] then .error .decodeError else .ok bs.length)
    (fun d => d)
    (fun a b => if b = 0 then .error .transformError else .ok (a + b, b))
    (fun d x => if x = 0 then (d, .error .mergeError) else (d + x, .ok ()))
    (fun d i _ => (d + 1, .ok i))
    (fun d iv => (d + 1, .ok iv))
    (fun d iv _ => (d + 1, .ok iv))
    (fun d iv _ => (d + 1, .ok iv))
    (fun d => decide (0 < d))
    (fun d => decide (0 < d))
    (fun d => if d = 0 then (0, .error .noHistoryError) else (d - 1, .ok 0))
    (fun d => (d + 1, .ok 0))
    (fun d => toString d)
    (fun x => toString x)
    pool
    (fun _ => .ok ())

/-- The test capabilities with an available pool. -/
def testOps : DocumentOps Nat Nat Nat Nat := mkTestOps (Except.ok ())

/-- The test capabilities with an exhausted pool. -/
def poolFailOps : DocumentOps Nat Nat Nat Nat := mkTestOps (Except.error ())

/-- A concrete starting actor state for the test capabilities. -/
def st0 : ActorState Nat := ⟨"doc", 0⟩

/-- A concrete starting actor state for the modelled document. -/
def stSpec : ActorState SpecDocument := ⟨"doc", ⟨"ab", [], []⟩⟩

/-- Helper: a fallible result whose observed error is `some e` is exactly
the result `error e`. -/
theorem errOpt_eq_some {a : Type} (x : Except DocError a) (e : DocError) :
    errOpt x = some e ↔ x = Except.error e := by
  cases x <;> simp [errOpt]

/-- Helper: the `RemoteRevision` arm of `handle_message` equals the staged
spec pipeline — a successful stage chain sends the transformed pair on
the reply handle, a failing stage returns its error to the dispatch
boundary with no reply sent and the state untouched. -/
theorem handle_remote_eq_staged (ops : DocumentOps Doc Delta Interval Attribute)
    (st : ActorState Doc) (bytes : List Nat) (ret : Nat) :
    handle_message ops st (DocumentMsg.remoteRevision bytes ret) =
      match remoteRevisionStaged ops st.doc bytes with
      | .ok td =>
        (st, [Effect.reply ret (ReplyPayload.transformResult (.ok td))], .ok ())
      | .error e => (st, [], .error e) := by
  simp only [handle_message, remoteRevisionStaged, bind, Except.bind, pure,
    Except.pure]
  cases h1 : ops.tryFromRevision bytes with
  | error e => rfl
  | ok revision =>
    cases h2 : ops.deltaFromBytes revision.delta_data with
    | error e => simp only [h2]
    | ok delta =>
      cases h3 : ops.transform (ops.docDelta st.doc) delta with
      | error e => simp only [h2, h3]
      | ok p => cases p with | mk a b => simp only [h2, h3]

/-- C2: handling a `RemoteRevision` command never changes the actor's
document state, whatever the outcome of decoding or transforming — the
handler only reads the document. -/
theorem remote_revision_preserves_state
    (ops : DocumentOps Doc Delta Interval Attribute)
    (st : ActorState Doc) (bytes : List Nat) (ret : Nat) :
    (handle_message ops st (DocumentMsg.remoteRevision bytes ret)).1 = st := by
  rw [handle_remote_eq_staged]
  cases remoteRevisionStaged ops st.doc bytes with
  | error e => rfl
  | ok td => rfl

/-- C3: the run loop dispatches the queued commands one at a time in
arrival order — the resulting document state is exactly that of folding
the handler sequentially over the commands, and splitting the queue
anywhere composes: the commands after the split start from the state the
commands before it produced. -/
theorem run_fifo_sequential (ops : DocumentOps Doc Delta Interval Attribute)
    (st : ActorState Doc) (msgs xs ys : List (DocumentMsg Delta Interval Attribute)) :
    (run ops st msgs).1 = sequentialExec ops st msgs ∧
    (run ops st (xs ++ ys)).1 = (run ops (run ops st xs).1 ys).1 := by
  constructor
  · induction msgs generalizing st with
    | nil => rfl
    | cons m rest ih => simpa [run, sequentialExec] using ih (handle_message ops st m).1
  · induction xs generalizing st with
    | nil => simp [run]
    | cons m rest ih => simpa [run] using ih (handle_message ops st m).1

/-- C4: the `RemoteRevision` handler is the staged pipeline of §4.4 —
decode the envelope, then decode the payload, then transform the current
document delta against the incoming delta, each stage propagating its
error, and on success the reply carries the transformed pair together
with the incoming revision id. -/
theorem remote_revision_staged_pipeline
    (ops : DocumentOps Doc Delta Interval Attribute)
    (st : ActorState Doc) (bytes : List Nat) (ret : Nat) :
    handle_message ops st (DocumentMsg.remoteRevision bytes ret) =
      match remoteRevisionStaged ops st.doc bytes with
      | .ok td =>
        (st, [Effect.reply ret (ReplyPayload.transformResult (.ok td))], .ok ())
      | .error e => (st, [], .error e) :=
  handle_remote_eq_staged ops st bytes ret

/-- C9: when the producers are gone the drained channel yields nothing
further — the loop exits with the state as the last handler left it and
no extra effects; a final command is still handled to completion (its
effects, including the boundary log of its error, are all emitted)
before the loop observes the closed channel and stops. -/
theorem closed_channel_terminates_loop
    (ops : DocumentOps Doc Delta Interval Attribute)
    (st : ActorState Doc) (msg : DocumentMsg Delta Interval Attribute) :
    run ops st ([] : List (DocumentMsg Delta Interval Attribute)) = (st, []) ∧
    (run ops st [msg]).1 = (handle_message ops st msg).1 ∧
    (run ops st [msg]).2 =
      (handle_message ops st msg).2.1 ++
        (match (handle_message ops st msg).2.2 with
         | .ok _ => []
         | .error e => [Effect.logError e]) := by
  refine ⟨rfl, rfl, ?_⟩
  simp [run]

/-- C1 (counterexample): a `RemoteRevision` whose bytes fail to decode has
a failing handler operation, yet the handler emits no effect at all — in
particular nothing is sent on reply handle 5; the error goes to the
dispatch boundary instead.  This refutes the claim that every handler
failure is delivered through the command's reply handle. -/
theorem remote_error_drops_reply_handle :
    handle_message testOps st0 (DocumentMsg.remoteRevision [] 5) =
      (st0, [], Except.error DocError.decodeError) ∧
    ¬ ∃ p, Effect.reply 5 p ∈
        (handle_message testOps st0 (DocumentMsg.remoteRevision [] 5)).2.1 :=
  ⟨rfl, fun hp => by
    obtain ⟨p, hp⟩ := hp
    simp [handle_message, testOps, mkTestOps] at hp⟩

/-- C1 (amended): a failing handler operation of any command other than
`RemoteRevision` has its error delivered to the caller through that
command's reply handle; a `RemoteRevision` whose decode or transform
fails instead returns the error to the dispatch boundary, its reply
handle dropped unanswered. -/
theorem error_propagation_policy (ops : DocumentOps Doc Delta Interval Attribute)
    (st : ActorState Doc) (msg : DocumentMsg Delta Interval Attribute)
    (e : DocError) (h : observedOpError ops st msg = some e) :
    ((∀ b r, msg ≠ DocumentMsg.remoteRevision b r) →
      ∃ p, Effect.reply msg.retOf p ∈ (handle_message ops st msg).2.1 ∧
        payloadError p = some e) ∧
    (∀ b r, msg = DocumentMsg.remoteRevision b r →
      (handle_message ops st msg).2.1 = [] ∧
      (handle_message ops st msg).2.2 = Except.error e) := by
  cases msg with
  | delta d r =>
    refine ⟨fun _ => ?_, fun b r' hh => by cases hh⟩
    simp only [observedOpError, errOpt_eq_some] at h
    refine ⟨ReplyPayload.composeResult (Except.error e), ?_, rfl⟩
    simp [handle_message, compose_delta, h, DocumentMsg.retOf]
  | remoteRevision bytes r =>
    simp only [observedOpError, errOpt_eq_some] at h
    refine ⟨fun hne => absurd rfl (hne bytes r), fun b r' hh => ?_⟩
    rw [handle_remote_eq_staged ops st bytes r, h]
    exact ⟨rfl, rfl⟩
  | insert i s r =>
    refine ⟨fun _ => ?_, fun b r' hh => by cases hh⟩
    simp only [observedOpError, errOpt_eq_some] at h
    exact ⟨ReplyPayload.opResult (Except.error e),
      by simp [handle_message, h, DocumentMsg.retOf], rfl⟩
  | delete iv r =>
    refine ⟨fun _ => ?_, fun b r' hh => by cases hh⟩
    simp only [observedOpError, errOpt_eq_some] at h
    exact ⟨ReplyPayload.opResult (Except.error e),
      by simp [handle_message, h, DocumentMsg.retOf], rfl⟩
  | format iv a r =>
    refine ⟨fun _ => ?_, fun b r' hh => by cases hh⟩
    simp only [observedOpError, errOpt_eq_some] at h
    exact ⟨ReplyPayload.opResult (Except.error e),
      by simp [handle_message, h, DocumentMsg.retOf], rfl⟩
  | replace iv s r =>
    refine ⟨fun _ => ?_, fun b r' hh => by cases hh⟩
    simp only [observedOpError, errOpt_eq_some] at h
    exact ⟨ReplyPayload.opResult (Except.error e),
      by simp [handle_message, h, DocumentMsg.retOf], rfl⟩
  | canUndo r => simp [observedOpError] at h
  | canRedo r => simp [observedOpError] at h
  | undo r =>
    refine ⟨fun _ => ?_, fun b r' hh => by cases hh⟩
    simp only [observedOpError, errOpt_eq_some] at h
    exact ⟨ReplyPayload.opResult (Except.error e),
      by simp [handle_message, h, DocumentMsg.retOf], rfl⟩
  | redo r =>
    refine ⟨fun _ => ?_, fun b r' hh => by cases hh⟩
    simp only [observedOpError, errOpt_eq_some] at h
    exact ⟨ReplyPayload.opResult (Except.error e),
      by simp [handle_message, h, DocumentMsg.retOf], rfl⟩
  | doc r => simp [observedOpError] at h
  | saveDocument rid r =>
    refine ⟨fun _ => ?_, fun b r' hh => by cases hh⟩
    simp only [observedOpError, errOpt_eq_some] at h
    exact ⟨ReplyPayload.saveResult (Except.error e),
      by simp [handle_message, h, DocumentMsg.retOf], rfl⟩

/-- Witness for the amended C1: a Compose (`Delta`) command whose compose
operation fails with `mergeError` gets that error on its reply handle. -/
theorem error_propagation_policy_witness :
    observedOpError testOps st0 (DocumentMsg.delta 0 3) = some DocError.mergeError ∧
    ∃ p, Effect.reply 3 p ∈ (handle_message testOps st0 (DocumentMsg.delta 0 3)).2.1 ∧
      payloadError p = some DocError.mergeError :=
  ⟨rfl,
    (error_propagation_policy testOps st0 (DocumentMsg.delta 0 3)
      DocError.mergeError rfl).1 (fun b r hh => by cases hh)⟩

/-- C5: with the modelled `Document` capability, a Compose command whose
application fails leaves the actor's document byte-identical to its
pre-call state — no partial mutation is observable by later commands. -/
theorem compose_failure_atomic (st : ActorState SpecDocument) (delta : SpecDelta)
    (ret : Nat) (e : DocError)
    (h : (specComposeDelta st.doc delta).2 = Except.error e) :
    (handle_message composeSpecOps st (DocumentMsg.delta delta ret)).1 = st := by
  have hd : (specComposeDelta st.doc delta).1 = st.doc := by
    unfold specComposeDelta at h ⊢
    cases ha : applyDelta st.doc.body delta with
    | none => simp [ha]
    | some nb => simp [ha] at h
  show (⟨st.doc_id, (composeSpecOps.composeDelta st.doc delta).1⟩ :
    ActorState SpecDocument) = st
  have hc : composeSpecOps.composeDelta = specComposeDelta := rfl
  rw [hc, hd]

/-- Witness for C5: retaining 5 characters of the 2-character body fails,
and the document afterwards equals the document before. -/
theorem compose_failure_atomic_witness :
    (specComposeDelta stSpec.doc [DOp.retain 5]).2 =
      Except.error DocError.mergeError ∧
    (handle_message composeSpecOps stSpec
      (DocumentMsg.delta [DOp.retain 5] 2)).1 = stSpec :=
  ⟨rfl, compose_failure_atomic stSpec [DOp.retain 5] 2 DocError.mergeError rfl⟩

/-- C6: when the pool yields a connection, handling `SaveDocument(revId)`
hands the persistence layer exactly one changeset — the actor's document
id, the serialization of the current document, and the given revision id
— and sends the save result on the reply handle. -/
theorem save_changeset_contents (ops : DocumentOps Doc Delta Interval Attribute)
    (st : ActorState Doc) (rid : Int) (ret : Nat)
    (h : ops.poolGet = Except.ok ()) :
    (handle_message ops st (DocumentMsg.saveDocument rid ret)).2.1 =
      [Effect.dbUpdate ⟨st.doc_id, ops.toJson st.doc, rid⟩,
       Effect.reply ret (ReplyPayload.saveResult (save_to_disk ops st rid).2)] := by
  simp only [handle_message, save_to_disk, h]
  cases hu : ops.updateDocTable ⟨st.doc_id, ops.toJson st.doc, rid⟩ with
  | error e => simp [hu]
  | ok u => simp [hu]

/-- Witness for C6: saving the test document at revision 3 hands the
persistence layer the changeset `⟨"doc", "0", 3⟩` and answers on reply
handle 4. -/
theorem save_changeset_contents_witness :
    testOps.poolGet = Except.ok () ∧
    (handle_message testOps st0 (DocumentMsg.saveDocument 3 4)).2.1 =
      [Effect.dbUpdate ⟨"doc", "0", 3⟩,
       Effect.reply 4 (ReplyPayload.saveResult (Except.ok ()))] := by
  refine ⟨rfl, ?_⟩
  have h := save_changeset_contents testOps st0 3 4 rfl
  rw [h]
  rfl

/-- C7: when the pool is exhausted, `SaveDocument` answers its caller with
`ConnectionError` on the reply handle and the in-memory document state is
unchanged. -/
theorem save_pool_exhausted (ops : DocumentOps Doc Delta Interval Attribute)
    (st : ActorState Doc) (rid : Int) (ret : Nat)
    (h : ops.poolGet = Except.error ()) :
    (handle_message ops st (DocumentMsg.saveDocument rid ret)).1 = st ∧
    (handle_message ops st (DocumentMsg.saveDocument rid ret)).2.1 =
      [Effect.reply ret (ReplyPayload.saveResult
        (Except.error DocError.connectionError))] := by
  refine ⟨rfl, ?_⟩
  simp [handle_message, save_to_disk, h, internal_error]

/-- Witness for C7: with the exhausted-pool capabilities, saving returns
`ConnectionError` on the reply handle and leaves the state alone. -/
theorem save_pool_exhausted_witness :
    poolFailOps.poolGet = Except.error () ∧
    (handle_message poolFailOps st0 (DocumentMsg.saveDocument 3 4)).1 = st0 ∧
    (handle_message poolFailOps st0 (DocumentMsg.saveDocument 3 4)).2.1 =
      [Effect.reply 4 (ReplyPayload.saveResult
        (Except.error DocError.connectionError))] :=
  ⟨rfl, (save_pool_exhausted poolFailOps st0 3 4 rfl).1,
    (save_pool_exhausted poolFailOps st0 3 4 rfl).2⟩

/-- C8: a handler error never terminates the loop — the state after the
whole queue is the state reached by continuing with the remaining
commands, and the error of a failing handler is logged among the loop's
effects. -/
theorem handler_error_logged_loop_continues
    (ops : DocumentOps Doc Delta Interval Attribute)
    (st : ActorState Doc) (msg : DocumentMsg Delta Interval Attribute)
    (rest : List (DocumentMsg Delta Interval Attribute)) :
    (run ops st (msg :: rest)).1 = (run ops (handle_message ops st msg).1 rest).1 ∧
    ∀ e, (handle_message ops st msg).2.2 = Except.error e →
      Effect.logError e ∈ (run ops st (msg :: rest)).2 := by
  refine ⟨rfl, ?_⟩
  intro e he
  simp [run, he]

/-- Witness for C8: a failing `RemoteRevision` is logged as
`decodeError` and the loop goes on to the next command. -/
theorem handler_error_logged_loop_continues_witness :
    (handle_message testOps st0 (DocumentMsg.remoteRevision [] 5)).2.2 =
      Except.error DocError.decodeError ∧
    Effect.logError DocError.decodeError ∈
      (run testOps st0
        [DocumentMsg.remoteRevision [] 5, DocumentMsg.canUndo 6]).2 :=
  ⟨rfl,
    (handler_error_logged_loop_continues testOps st0
      (DocumentMsg.remoteRevision [] 5) [DocumentMsg.canUndo 6]).2
      DocError.decodeError rfl⟩

/-- C10: every command variant other than `RemoteRevision` reaches the
dispatch boundary with `Ok(())` no matter how its operation fared (the
operation's own result travels only on the reply handle);
`RemoteRevision` is the one variant that can surface an error there. -/
theorem dispatch_ok_except_remote (ops : DocumentOps Doc Delta Interval Attribute)
    (st : ActorState Doc) :
    (∀ d r, (handle_message ops st (DocumentMsg.delta d r)).2.2 = Except.ok ()) ∧
    (∀ i s r, (handle_message ops st (DocumentMsg.insert i s r)).2.2 = Except.ok ()) ∧
    (∀ iv r, (handle_message ops st (DocumentMsg.delete iv r)).2.2 = Except.ok ()) ∧
    (∀ iv a r, (handle_message ops st (DocumentMsg.format iv a r)).2.2 = Except.ok ()) ∧
    (∀ iv s r, (handle_message ops st (DocumentMsg.replace iv s r)).2.2 = Except.ok ()) ∧
    (∀ r, (handle_message ops st (DocumentMsg.canUndo r)).2.2 = Except.ok ()) ∧
    (∀ r, (handle_message ops st (DocumentMsg.canRedo r)).2.2 = Except.ok ()) ∧
    (∀ r, (handle_message ops st (DocumentMsg.undo r)).2.2 = Except.ok ()) ∧
    (∀ r, (handle_message ops st (DocumentMsg.redo r)).2.2 = Except.ok ()) ∧
    (∀ r, (handle_message ops st (DocumentMsg.doc r)).2.2 = Except.ok ()) ∧
    (∀ rid r, (handle_message ops st (DocumentMsg.saveDocument rid r)).2.2 =
      Except.ok ()) ∧
    (∃ b r e, (handle_message testOps st0 (DocumentMsg.remoteRevision b r)).2.2 =
      Except.error e) :=
  ⟨fun _ _ => rfl, fun _ _ _ => rfl, fun _ _ => rfl, fun _ _ _ => rfl,
   fun _ _ _ => rfl, fun _ => rfl, fun _ => rfl, fun _ => rfl, fun _ => rfl,
   fun _ => rfl, fun _ _ => rfl, ⟨[], 5, DocError.decodeError, rfl⟩⟩

end DocActor
